import Mathlib

/-!
Verification of the eSign PDF-signing core (`src-tauri/src/pdf.rs`,
`src-tauri/src/pkcs11/manager.rs`, `src-tauri/src/lib.rs`).

Bytes are modelled as `Nat` (values < 256 in practice), byte buffers as
`List Nat`.  External cryptographic primitives (the sha2 crate's SHA-256)
are modelled as an explicit function parameter `H`, since the repository
only feeds bytes to them and consumes their output.  Fallible Rust code
returns `Except`; a Rust panic is a distinct outcome where it is reachable.
-/

set_option maxRecDepth 4000

namespace ESign

/-- Error codes of `error.rs` (`SigningErrorCode`, VNPT-CA compatible). -/
inductive SigningErrorCode where
  | Success
  | InvalidInput
  | CertificateNotFound
  | SigningFailed
  | PrivateKeyNotFound
  | UnknownError
  | PageParameterMissing
  | InvalidSignaturePage
  | TokenNotFound
  | TokenReferenceError
  | InvalidExistingSignature
  | UserCancelled
deriving DecidableEq

/-- Numeric value of each code (`#[repr(i32)]` in `error.rs`). -/
def SigningErrorCode.toCode : SigningErrorCode → Nat
  | .Success => 0
  | .InvalidInput => 1
  | .CertificateNotFound => 2
  | .SigningFailed => 3
  | .PrivateKeyNotFound => 4
  | .UnknownError => 5
  | .PageParameterMissing => 6
  | .InvalidSignaturePage => 7
  | .TokenNotFound => 8
  | .TokenReferenceError => 9
  | .InvalidExistingSignature => 10
  | .UserCancelled => 11

/-- The `ESignError` enum of `error.rs`, restricted to the variants the
claims touch.  Messages are kept as strings, as in the Rust `format!` calls. -/
inductive ESignError where
  | Pkcs11 (msg : String)
  | Pdf (msg : String)
  | Tsa (msg : String)
  | Signing (code : SigningErrorCode) (msg : String)
deriving DecidableEq

/-! ## DER primitive builders (`pdf.rs` helper functions) -/

/-- Rust `extend_with_length` of `pdf.rs`: appends the ASN.1 DER length encoding
of `len` to `buf`.  `(x >> k) as u8` is `x / 2^k % 256`. -/
def extend_with_length (buf : List Nat) (len : Nat) : List Nat :=
  if len < 128 then buf ++ [len]
  else if len < 256 then buf ++ [0x81, len]
  else if len < 65536 then buf ++ [0x82, len / 256 % 256, len % 256]
  else buf ++ [0x83, len / 65536 % 256, len / 256 % 256, len % 256]

/-- Rust `build_sequence` of `pdf.rs`. -/
def build_sequence (content : List Nat) : List Nat :=
  extend_with_length [0x30] content.length ++ content

/-- Rust `build_set` of `pdf.rs`. -/
def build_set (content : List Nat) : List Nat :=
  extend_with_length [0x31] content.length ++ content

/-- Rust `build_oid` of `pdf.rs` (single-byte length: `oid_bytes.len() as u8`). -/
def build_oid (oid_bytes : List Nat) : List Nat :=
  0x06 :: oid_bytes.length % 256 :: oid_bytes

/-- Rust `build_octet_string` of `pdf.rs`. -/
def build_octet_string (data : List Nat) : List Nat :=
  extend_with_length [0x04] data.length ++ data

/-- Rust `build_attribute` of `pdf.rs`. -/
def build_attribute (oid : List Nat) (value : List Nat) : List Nat :=
  build_sequence (build_oid oid ++ build_set value)

/-- Rust `build_sha256_algorithm_identifier` of `pdf.rs`. -/
def build_sha256_algorithm_identifier : List Nat :=
  build_sequence (build_oid [0x60, 0x86, 0x48, 0x01, 0x65, 0x03, 0x04, 0x02, 0x01] ++ [0x05, 0x00])

/-- Rust `build_utc_time` of `pdf.rs`, parameterised by the formatted time
string bytes (`chrono` renders the wall clock as `YYMMDDHHMMSSZ`,
13 ASCII bytes; `time_str.len() as u8` is the `% 256`). -/
def build_utc_time (time_str : List Nat) : List Nat :=
  0x17 :: time_str.length % 256 :: time_str

/-! ## DER length decoding (specification side)

`decode_der_length` is the ASN.1 reading of a DER length header: it is the
specification that `extend_with_length` is measured against, not a
translation of repository code. -/

/-- Read a DER length header: returns the encoded length and the remaining
bytes. -/
def decode_der_length : List Nat → Option (Nat × List Nat)
  | [] => none
  | b :: rest =>
    if b < 128 then some (b, rest)
    else if b = 0x81 then
      match rest with
      | b1 :: r => some (b1, r)
      | [] => none
    else if b = 0x82 then
      match rest with
      | b1 :: b2 :: r => some (b1 * 256 + b2, r)
      | _ => none
    else if b = 0x83 then
      match rest with
      | b1 :: b2 :: b3 :: r => some (b1 * 65536 + b2 * 256 + b3, r)
      | _ => none
    else none

/-! ## SignedAttributes (`build_signed_attributes` of `pdf.rs`) -/

/-- OID body bytes of `contentType` (1.2.840.113549.1.9.3). -/
def contentTypeOid : List Nat := [0x2A, 0x86, 0x48, 0x86, 0xF7, 0x0D, 0x01, 0x09, 0x03]

/-- OID body bytes of `id-data` (1.2.840.113549.1.7.1). -/
def dataOid : List Nat := [0x2A, 0x86, 0x48, 0x86, 0xF7, 0x0D, 0x01, 0x07, 0x01]

/-- OID body bytes of `messageDigest` (1.2.840.113549.1.9.4). -/
def msgDigestOid : List Nat := [0x2A, 0x86, 0x48, 0x86, 0xF7, 0x0D, 0x01, 0x09, 0x04]

/-- OID body bytes of `signingTime` (1.2.840.113549.1.9.5). -/
def signingTimeOid : List Nat := [0x2A, 0x86, 0x48, 0x86, 0xF7, 0x0D, 0x01, 0x09, 0x05]

/-- Rust `build_signed_attributes` of `pdf.rs`: SET OF the contentType,
messageDigest and signingTime attributes.  The wall-clock UTCTime string is
the parameter `time_str`. -/
def build_signed_attributes (document_digest : List Nat) (time_str : List Nat) : List Nat :=
  build_set
    (build_attribute contentTypeOid (build_oid dataOid) ++
      build_attribute msgDigestOid (build_octet_string document_digest) ++
      build_attribute signingTimeOid (build_utc_time time_str))

/-! ## Extracting the messageDigest value (specification side)

A small DER walk over an encoded SignedAttributes SET: skip attributes until
the one whose OID is `messageDigest`, then return the bytes of the OCTET
STRING inside its value SET.  This is the specification-side reading used to
state that the digest bytes land in the attribute unchanged. -/

/-- Scan a concatenation of DER `Attribute` SEQUENCEs for the messageDigest
attribute; `fuel` bounds the number of attributes inspected. -/
def scan_attrs : Nat → List Nat → Option (List Nat)
  | 0, _ => none
  | fuel + 1, bytes =>
    match bytes with
    | 0x30 :: rest =>
      match decode_der_length rest with
      | none => none
      | some (alen, r) =>
        match r with
        | 0x06 :: olen :: r2 =>
          if r2.take olen = msgDigestOid then
            match r2.drop olen with
            | 0x31 :: rest2 =>
              match decode_der_length rest2 with
              | none => none
              | some (_, r3) =>
                match r3 with
                | 0x04 :: rest3 =>
                  match decode_der_length rest3 with
                  | none => none
                  | some (dlen, r4) => some (r4.take dlen)
                | _ => none
            | _ => none
          else scan_attrs fuel (r.drop alen)
        | _ => none
    | _ => none

/-- Read the OCTET STRING value of the messageDigest attribute out of an
encoded SignedAttributes SET. -/
def extract_message_digest (attrs_der : List Nat) : Option (List Nat) :=
  match attrs_der with
  | 0x31 :: rest =>
    match decode_der_length rest with
    | none => none
    | some (_, r) => scan_attrs (r.length + 1) r
  | _ => none

/-! ## Byte-range computation (`calculate_byte_range` of `pdf.rs`) -/

/-- The `/ByteRange` array `[off1, len1, off2, len2]`. -/
structure ByteRange where
  o1 : Nat
  l1 : Nat
  o2 : Nat
  l2 : Nat
deriving DecidableEq

/-- Constant `SIGNATURE_CONTAINER_SIZE` of `pdf.rs`. -/
def SIGNATURE_CONTAINER_SIZE : Nat := 65536

/-- Constant `SIGNATURE_MAX_DISTANCE_FROM_EOF` of `pdf.rs`. -/
def SIGNATURE_MAX_DISTANCE_FROM_EOF : Nat := 1000000

/-- Window comparison: the `pat.length`-byte window of `pdf` at `p` equals
`pat` (Rust `windows(n)` element comparison). -/
def slice_eq (pdf pat : List Nat) (p : Nat) : Bool :=
  (pdf.drop p).take pat.length == pat

/-- Scan window positions `m, m-1, ..., 0` for the last match (the
auxiliary recursion behind Rust `windows(n).rposition`). -/
def rpos_from (pdf pat : List Nat) : Nat → Option Nat
  | 0 => if slice_eq pdf pat 0 then some 0 else none
  | m + 1 => if slice_eq pdf pat (m + 1) then some (m + 1) else rpos_from pdf pat m

/-- Rust `windows(pat.len()).rposition(|w| w == pat)`: index of the last
window of `pdf` equal to `pat`. -/
def rpos_window (pdf pat : List Nat) : Option Nat :=
  if pat.length ≤ pdf.length then rpos_from pdf pat (pdf.length - pat.length)
  else none

/-- Rust `iter().position(p)` over a byte list. -/
def position (p : Nat → Bool) : List Nat → Option Nat
  | [] => none
  | b :: rest => if p b then some 0 else (position p rest).map (· + 1)

/-- Pattern bytes of the string slash-Contents-space-angle (the
`"/Contents <"` literal of `calculate_byte_range`). -/
def CONTENTS_SP : List Nat := [47, 67, 111, 110, 116, 101, 110, 116, 115, 32, 60]

/-- Pattern bytes of the string slash-Contents-angle (the `"/Contents<"`
literal of `calculate_byte_range`). -/
def CONTENTS_NSP : List Nat := [47, 67, 111, 110, 116, 101, 110, 116, 115, 60]

/-- Rust `calculate_byte_range` of `pdf.rs`: find the last `/Contents`
occurrence from the end, check it is within 1 MiB of EOF, locate the opening
angle bracket and the closing one, and return
`[0, hex_start, hex_end + 1, len - (hex_end + 1)]`. -/
def calculate_byte_range (pdf : List Nat) : Except ESignError ByteRange :=
  match (rpos_window pdf CONTENTS_SP).orElse (fun _ => rpos_window pdf CONTENTS_NSP) with
  | none => .error (.Pdf "Cannot find /Contents in PDF")
  | some contents_start =>
    if contents_start < pdf.length - SIGNATURE_MAX_DISTANCE_FROM_EOF then
      .error (.Pdf ("Signature container at unexpected position (" ++
        toString contents_start ++ "). Expected within " ++
        toString SIGNATURE_MAX_DISTANCE_FROM_EOF ++ " bytes of EOF."))
    else
      match position (fun b => b == 60) (pdf.drop contents_start) with
      | none => .error (.Pdf "Cannot find '<' after /Contents")
      | some p =>
        match position (fun b => b == 62) (pdf.drop (contents_start + p)) with
        | none => .error (.Pdf "Cannot find end of /Contents")
        | some q =>
          .ok ⟨0, contents_start + p, contents_start + p + q + 1,
            pdf.length - (contents_start + p + q + 1)⟩

/-! ## Document digest (`compute_document_digest` of `pdf.rs`) -/

/-- Rust `compute_document_digest` of `pdf.rs`, with the sha2 crate's
SHA-256 as the parameter `H` (incremental `update` calls hash the
concatenation of their arguments).  The first slice
`pdf[br.o1 .. br.o1 + br.l1]` panics when it overruns the buffer, modelled
as `none`; the second span is guarded by an explicit bounds check and
silently skipped when out of bounds. -/
def compute_document_digest (H : List Nat → List Nat) (pdf : List Nat)
    (br : ByteRange) : Option (List Nat) :=
  if br.o1 + br.l1 ≤ pdf.length then
    some (H ((pdf.drop br.o1).take br.l1 ++
      (if br.o2 + br.l2 ≤ pdf.length then (pdf.drop br.o2).take br.l2 else [])))
  else none

/-! ## Signature embedding (`embed_signature` of `pdf.rs`) -/

/-- Outcome of `embed_signature`: success, an `ESignError`, or a Rust
panic (slice-length mismatch or out-of-bounds indexing). -/
inductive EmbedResult where
  | ok (out : List Nat)
  | err (e : ESignError)
  | panics
deriving DecidableEq

/-- Forward scan for the first window match (auxiliary recursion behind
Rust `windows(n).position`); `k` counts the remaining candidate positions. -/
def ffind (pdf pat : List Nat) : Nat → Nat → Option Nat
  | _, 0 => none
  | p, k + 1 => if slice_eq pdf pat p then some p else ffind pdf pat (p + 1) k

/-- Rust `find_bytes` of `pdf.rs`: index of the first window of `haystack`
equal to `needle`. -/
def find_bytes (haystack needle : List Nat) : Option Nat :=
  if needle.length ≤ haystack.length then
    ffind haystack needle 0 (haystack.length - needle.length + 1)
  else none

/-- Bytes of the placeholder string `/ByteRange [0 0 0 0]` (20 bytes). -/
def byteRangeMarker : List Nat :=
  [47, 66, 121, 116, 101, 82, 97, 110, 103, 101, 32, 91, 48, 32, 48, 32, 48, 32, 48, 93]

/-- Decimal ASCII digits of a natural number. -/
def natDigits (n : Nat) : List Nat := (Nat.toDigits 10 n).map Char.toNat

/-- The formatted replacement string
`/ByteRange [o1 l1 o2 l2]` as bytes (the `format!` in `embed_signature`). -/
def format_byte_range (br : ByteRange) : List Nat :=
  [47, 66, 121, 116, 101, 82, 97, 110, 103, 101, 32, 91] ++
    natDigits br.o1 ++ [32] ++ natDigits br.l1 ++ [32] ++
    natDigits br.o2 ++ [32] ++ natDigits br.l2 ++ [93]

/-- Left-justified space padding to width `w` (Rust `format!` width for
strings).  Strings longer than `w` are returned unchanged. -/
def padRight (l : List Nat) (w : Nat) : List Nat :=
  l ++ List.replicate (w - l.length) 32

/-- Upper-case hex digit of a nibble (0-9 then A-F). -/
def hexDigit (n : Nat) : Nat := if n < 10 then 48 + n else 55 + n

/-- Rust `hex::encode_upper`: two upper-case hex digits per byte. -/
def hex_encode_upper (l : List Nat) : List Nat :=
  l.flatMap (fun b => [hexDigit (b / 16 % 16), hexDigit (b % 16)])

/-- Message of the oversized-signature error in `embed_signature`
(`Signature too large ... for container ...`). -/
def tooLargeMsg (hexLen : Nat) : String :=
  "Signature too large (" ++ toString hexLen ++ " bytes) for container (" ++
    toString (SIGNATURE_CONTAINER_SIZE * 2) ++ " bytes)"

/-- Message of the container-width mismatch error in `embed_signature`. -/
def mismatchMsg (got : Nat) : String :=
  "Signature container size mismatch: expected " ++
    toString (SIGNATURE_CONTAINER_SIZE * 2) ++ " bytes, got " ++
    toString got ++ " bytes"

/-- Replace `repl.length` bytes of `l` starting at `pos` (Rust
`copy_from_slice` on a slice of equal length). -/
def splice (l : List Nat) (pos : Nat) (repl : List Nat) : List Nat :=
  l.take pos ++ repl ++ l.drop (pos + repl.length)

/-- Rust `embed_signature` of `pdf.rs`.  Steps, in source order: rewrite
the `/ByteRange [0 0 0 0]` marker in place when present (Rust panics when
the formatted replacement exceeds the 20-byte marker), hex-encode the CMS,
reject when it exceeds the 131,072-character container, right-pad with
ASCII zeros, check the container window width, and splice the padded hex
into the window (Rust panics when the window overruns the buffer).
Subtraction is `Nat` (saturating); the Rust build wraps instead on
underflow, which no input reachable from `calculate_byte_range` triggers. -/
def embed_signature (pdf : List Nat) (cms_data : List Nat) (br : ByteRange) : EmbedResult :=
  let step1 : EmbedResult :=
    match find_bytes pdf byteRangeMarker with
    | none => .ok pdf
    | some pos =>
      let padded := padRight (format_byte_range br) byteRangeMarker.length
      if padded.length = byteRangeMarker.length then .ok (splice pdf pos padded)
      else .panics
  match step1 with
  | .ok pdf1 =>
    let hex_signature := hex_encode_upper cms_data
    if SIGNATURE_CONTAINER_SIZE * 2 < hex_signature.length then
      .err (.Pdf (tooLargeMsg hex_signature.length))
    else
      let target_size := SIGNATURE_CONTAINER_SIZE * 2
      let padded_signature :=
        hex_signature ++ List.replicate (target_size - hex_signature.length) 48
      let contents_start := br.l1 + 1
      let contents_end := br.o2 - 1
      if contents_end - contents_start ≠ SIGNATURE_CONTAINER_SIZE * 2 then
        .err (.Pdf (mismatchMsg (contents_end - contents_start)))
      else if contents_end ≤ pdf1.length then
        .ok (pdf1.take contents_start ++ padded_signature ++ pdf1.drop contents_end)
      else .panics
  | other => other

/-- Write-after-success of `sign_pdf` in `pdf.rs` (lines 246-250): the
output file receives the signed bytes only when the pipeline's final
embedding step succeeds; any error propagates via `?` before
`std::fs::write` runs. -/
def sign_pdf_output (prepared cms : List Nat) (br : ByteRange) : Option (List Nat) :=
  match embed_signature prepared cms br with
  | .ok out => some out
  | _ => none

/-! ## Timestamp integration (`add_timestamp_to_cms` of `pdf.rs`) -/

/-- Length and header size read at `pos` inside the signature scan of
`add_timestamp_to_cms` (`cms_data[pos + 1]` dispatch). -/
def sig_len_at (cms : List Nat) (pos : Nat) : Nat × Nat :=
  let b1 := cms.getD (pos + 1) 0
  if b1 < 128 then (b1, 2)
  else if b1 = 0x81 then (cms.getD (pos + 2) 0, 3)
  else if b1 = 0x82 then (cms.getD (pos + 2) 0 * 256 + cms.getD (pos + 3) 0, 4)
  else (0, 2)

/-- The `while pos < cms_len - 10` scan of `add_timestamp_to_cms` looking
for the last plausible signature OCTET STRING; `fuel` only bounds the
loop (the caller passes enough for every position). -/
def scan_sig_end (cms : List Nat) : Nat → Nat → Option Nat → Option Nat
  | 0, _, acc => acc
  | fuel + 1, pos, acc =>
    if pos < cms.length - 10 then
      let acc' :=
        if cms.getD pos 0 = 0x04 ∧ 100 < cms.getD (pos + 1) 0 then
          let sl := sig_len_at cms pos
          if 128 ≤ sl.1 ∧ sl.1 ≤ 512 ∧ pos + sl.2 + sl.1 ≤ cms.length then
            some (pos + sl.2 + sl.1)
          else acc
        else acc
      scan_sig_end cms fuel (pos + 1) acc'
    else acc

/-- Rust `add_timestamp_to_cms` of `pdf.rs`.  The function builds the
unsignedAttrs bytes and a provisional `new_cms`, but every return path
yields `Ok(cms_data.to_vec())`: short inputs return early, a failed scan
returns the input, and the final statement returns the input as well (the
built `new_cms` is discarded with a logged note that embedding requires an
ASN.1 rebuild).  The branch structure is kept; the result is the input CMS
on each branch, as in the source. -/
def add_timestamp_to_cms (cms_data timestamp_token : List Nat) : List Nat :=
  if cms_data.length < 50 then cms_data
  else
    match scan_sig_end cms_data cms_data.length 20 none with
    | none => cms_data
    | some _ => cms_data

/-! ## Page placement (`add_annotation_to_page` of `pdf.rs`, `sign_pdf`
command validation of `lib.rs`) -/

/-- Rust `add_annotation_to_page` of `pdf.rs`, abstracted over the page
count: `page_iter().nth(page_num.saturating_sub(1))` succeeds exactly when
that zero-based index is below the page count, and on success the returned
value is the zero-based index of the page that receives the widget. -/
def add_annotation_to_page (page_count page_num : Nat) : Except ESignError Nat :=
  if page_num - 1 < page_count then .ok (page_num - 1)
  else .error (.Signing .InvalidSignaturePage ("Page " ++ toString page_num ++ " not found"))

/-- Page validation of the `sign_pdf` Tauri command in `lib.rs`
(lines 225-230 plus the later `page.unwrap_or(1)`): rejects `0` and
`> 1000` with a plain string error, otherwise yields the page number
passed to the engine. -/
def sign_pdf_page_check (page : Option Nat) : Except String Nat :=
  match page with
  | some p =>
    if p = 0 ∨ 1000 < p then .error "Invalid page number (must be 1-1000)"
    else .ok p
  | none => .ok 1

/-! ## Token manager login (`login` of `pkcs11/manager.rs`) -/

/-- Mutable fields of `TokenManager` (each behind a `Mutex` in Rust;
the embedding is single-threaded, so a lock always succeeds). -/
structure TokenManagerState where
  session : Option Nat
  signing_key : Option Nat
  certificate_der : Option (List Nat)
  certificate_chain : List (List Nat)
deriving DecidableEq

/-- Results of the five fallible PKCS#11 steps `login` performs, in call
order.  They are FFI calls into the vendor library, so their outcomes are
inputs of the embedding. -/
structure LoginEnv where
  get_slots : Except String (List Nat)
  open_rw_session : Nat → Except String Nat
  authenticate : Nat → Except String Unit
  find_key : Nat → Except ESignError Nat
  find_chain : Nat → Except ESignError (List Nat × List (List Nat))

/-- Rust `login` of `pkcs11/manager.rs` as a state transformer: slot
lookup, session open, PIN authentication, key discovery, certificate-chain
discovery, then the four stores.  Every failing step returns before any
store executes, so the prior state rides through unchanged. -/
def login (st : TokenManagerState) (env : LoginEnv) (slot_id : Nat) :
    TokenManagerState × Except ESignError Unit :=
  match env.get_slots with
  | .error e => (st, .error (.Signing .TokenNotFound ("Failed to get slots: " ++ e)))
  | .ok slots =>
    match slots.find? (fun s => s == slot_id) with
    | none => (st, .error (.Signing .TokenNotFound ("Slot " ++ toString slot_id ++ " not found")))
    | some slot =>
      match env.open_rw_session slot with
      | .error e => (st, .error (.Pkcs11 ("Failed to open session: " ++ e)))
      | .ok session =>
        match env.authenticate session with
        | .error e => (st, .error (.Signing .SigningFailed ("PIN authentication failed: " ++ e)))
        | .ok _ =>
          match env.find_key session with
          | .error e => (st, .error e)
          | .ok key =>
            match env.find_chain session with
            | .error e => (st, .error e)
            | .ok (cert_der, cert_chain) =>
              (⟨some session, some key, some cert_der, cert_chain⟩, .ok ())

/-- Rust `is_logged_in` of `pkcs11/manager.rs`. -/
def is_logged_in (st : TokenManagerState) : Bool := st.session.isSome

/-! ## Certificate-chain building (`build_certificate_chain`,
`find_certificate_chain` of `pkcs11/manager.rs`) -/

/-- Parsed subject and issuer distinguished names of a certificate
(`X509Certificate::from_der` is the external x509-parser crate, so parsing
is the parameter `parse`; DNs compare by equality). -/
structure ParsedCert where
  subject : Nat
  issuer : Nat
deriving DecidableEq

/-- Candidate test of the inner `for candidate in all_certs` loop: skip the
current certificate (DER equality), skip unparsable candidates, match when
the candidate's subject equals the sought issuer. -/
def issuer_match (parse : List Nat → Option ParsedCert) (current : List Nat)
    (issuer : Nat) (c : List Nat) : Bool :=
  if c = current then false
  else
    match parse c with
    | none => false
    | some pr => pr.subject == issuer

/-- The `for _ in 0..MAX_CHAIN_LENGTH` loop of `build_certificate_chain`:
stop when the current certificate fails to parse, is self-signed, or has no
issuer on the token; otherwise append the first matching candidate and
continue with it. -/
def chain_loop (parse : List Nat → Option ParsedCert) (all_certs : List (List Nat)) :
    Nat → List (List Nat) → List Nat → List (List Nat)
  | 0, chain, _ => chain
  | fuel + 1, chain, current =>
    match parse current with
    | none => chain
    | some pr =>
      if pr.issuer = pr.subject then chain
      else
        match all_certs.find? (issuer_match parse current pr.issuer) with
        | none => chain
        | some cand => chain_loop parse all_certs fuel (chain ++ [cand]) cand

/-- Rust `build_certificate_chain` of `pkcs11/manager.rs`
(`MAX_CHAIN_LENGTH = 10`). -/
def build_certificate_chain (parse : List Nat → Option ParsedCert)
    (end_entity : List Nat) (all_certs : List (List Nat)) : List (List Nat) :=
  chain_loop parse all_certs 10 [end_entity] end_entity

/-- Tail of Rust `find_certificate_chain` of `pkcs11/manager.rs` after the
token has yielded the certificate DER values `all_certs`: the end-entity is
the first certificate object returned, and the chain is built from it. -/
def find_certificate_chain (parse : List Nat → Option ParsedCert)
    (all_certs : List (List Nat)) : Except ESignError (List Nat × List (List Nat)) :=
  match all_certs with
  | [] => .error (.Signing .CertificateNotFound "No certificate values found")
  | e :: _ => .ok (e, build_certificate_chain parse e all_certs)

/-- Adjacency relation along a built chain: both certificates parse and the
successor's subject is the predecessor's issuer. -/
def ChainLink (parse : List Nat → Option ParsedCert) (a b : List Nat) : Prop :=
  ∃ pa pb, parse a = some pa ∧ parse b = some pb ∧ pb.subject = pa.issuer

/-! ## Concrete fixtures (used only to instantiate theorems at closed
inputs) -/

/-- A logged-out manager state. -/
def emptyState : TokenManagerState := ⟨none, none, none, []⟩

/-- An environment whose very first PKCS#11 call fails. -/
def failEnv : LoginEnv :=
  ⟨.error "slots unavailable", fun _ => .error "no session", fun _ => .error "no auth",
    fun _ => .error (.Pkcs11 "no key"), fun _ => .error (.Pkcs11 "no certs")⟩

/-- An environment in which every PKCS#11 step succeeds. -/
def okEnv : LoginEnv :=
  ⟨.ok [5], fun _ => .ok 7, fun _ => .ok (), fun _ => .ok 11,
    fun _ => .ok ([1, 2], [[1, 2]])⟩

/-- A prepared document reduced to its signature container: the literal
`/Contents<`, 131,072 ASCII zeros, and the closing angle bracket. -/
def samplePrepared : List Nat := CONTENTS_NSP ++ List.replicate 131072 48 ++ [62]

/-- A bare container window: an opening angle bracket, 131,072 ASCII
zeros, and the closing angle bracket (enough for `embed_signature`, which
only needs the window itself). -/
def sampleWindow : List Nat := 60 :: List.replicate 131072 48 ++ [62]

/-- The byte range of `sampleWindow`. -/
def sampleWindowRange : ByteRange := ⟨0, 0, 131074, 0⟩

/-- A three-certificate token: end-entity `[1]` issued by `[2]`, issued by
the self-signed root `[3]`. -/
def sampleParse : List Nat → Option ParsedCert
  | [1] => some ⟨1, 2⟩
  | [2] => some ⟨2, 3⟩
  | [3] => some ⟨3, 3⟩
  | _ => none

/-- The certificate objects of the sample token, end-entity first. -/
def sampleCerts : List (List Nat) := [[1], [2], [3]]

/-- Whether an `ESignError` is the `Signing` variant carrying the given
code (used to compare error categories). -/
def is_signing_error_code (e : ESignError) (c : SigningErrorCode) : Bool :=
  match e with
  | .Signing c2 _ => c2 == c
  | _ => false

/-- A stand-in hash for instantiating theorems that quantify over the
SHA-256 parameter: constant 32-byte output. -/
def sampleHash : List Nat → List Nat := fun _ => List.replicate 32 0

/-- A 13-byte UTCTime string fixture (`YYMMDDHHMMSSZ` has 13 bytes). -/
def sampleTime : List Nat := List.replicate 13 48

/-! # Theorems -/

/-- C6: the DER length encoder emits the correct encoding for every content
length below 2^24: a decoder following X.690 reads the value back exactly,
lengths below 128 use the single-byte short form, 128-255 use `0x81` plus
one byte, 256-65535 use `0x82` plus two big-endian bytes, and 65536 and
above use `0x83` plus three big-endian bytes; the boundary lengths 127,
128, 255, 256, 65535 and 65536 are all instances. -/
theorem c6_der_length_encoding (len : Nat) (rest : List Nat) (h : len < 2 ^ 24) :
    decode_der_length (extend_with_length [] len ++ rest) = some (len, rest) ∧
    (len < 128 → extend_with_length [] len = [len]) ∧
    (128 ≤ len → len < 256 → extend_with_length [] len = [0x81, len]) ∧
    (256 ≤ len → len < 65536 → extend_with_length [] len = [0x82, len / 256, len % 256]) ∧
    (65536 ≤ len →
      extend_with_length [] len = [0x83, len / 65536, len / 256 % 256, len % 256]) := by
  refine ⟨?_, ?_, ?_, ?_, ?_⟩
  · by_cases h1 : len < 128
    · simp [extend_with_length, h1, decode_der_length]
    · by_cases h2 : len < 256
      · simp [extend_with_length, h1, h2, decode_der_length]
      · by_cases h3 : len < 65536
        · simp [extend_with_length, h1, h2, h3, decode_der_length]
          omega
        · simp [extend_with_length, h1, h2, h3, decode_der_length]
          omega
  · intro h1
    simp [extend_with_length, h1]
  · intro h1 h2
    rw [extend_with_length, if_neg (by omega), if_pos h2]
    simp
  · intro h1 h2
    rw [extend_with_length, if_neg (by omega), if_neg (by omega), if_pos h2]
    simp
    omega
  · intro h1
    rw [extend_with_length, if_neg (by omega), if_neg (by omega), if_neg (by omega)]
    simp
    omega

/-- Witness for C6 at the 65,536 boundary. -/
theorem c6_der_length_encoding_witness :
    decode_der_length (extend_with_length [] 65536 ++ []) = some (65536, []) ∧
    extend_with_length [] 65536 = [0x83, 1, 0, 0] := by
  have h := c6_der_length_encoding 65536 [] (by decide)
  refine ⟨h.1, ?_⟩
  have h5 := h.2.2.2.2 (by decide)
  simpa using h5

/-- C3: the claim asserts that an obtained TSA token is wrapped in an
UnsignedAttributes `[1]` IMPLICIT SET and inserted at the end of
SignerInfo.  The code never does this: every return path of
`add_timestamp_to_cms` yields the input CMS unchanged, so the embedded CMS
carries no timestamp attribute. -/
theorem c3_timestamp_never_embedded (cms_data timestamp_token : List Nat) :
    add_timestamp_to_cms cms_data timestamp_token = cms_data := by
  unfold add_timestamp_to_cms
  split
  · rfl
  · split <;> rfl

/-- C5 counterexample: placement with `page = 0` does not fail with
`InvalidSignaturePage`; `saturating_sub` sends it to the first page (index
0) of a 2-page document. -/
theorem c5_page_zero_counterexample : add_annotation_to_page 2 0 = .ok 0 := by
  rfl

/-- C5 (amended): placement with `page = 1` targets the first page, and
placement with `page > page_count` fails with `InvalidSignaturePage`;
`page = 0` is rejected before placement by the `sign_pdf` command with a
plain string error (not `InvalidSignaturePage`), and placement itself
treats `page = 0` exactly like `page = 1`. -/
theorem c5_page_placement (n p : Nat) :
    (0 < n → add_annotation_to_page n 1 = .ok 0) ∧
    (n < p → add_annotation_to_page n p =
      .error (.Signing .InvalidSignaturePage ("Page " ++ toString p ++ " not found"))) ∧
    sign_pdf_page_check (some 0) = .error "Invalid page number (must be 1-1000)" ∧
    (0 < n → add_annotation_to_page n 0 = .ok 0) := by
  refine ⟨?_, ?_, ?_, ?_⟩
  · intro h
    simp [add_annotation_to_page, h]
  · intro h
    rw [add_annotation_to_page, if_neg (by omega)]
  · rfl
  · intro h
    simp [add_annotation_to_page, h]

/-- Witness for C5 on a 3-page document: page 1 is placed on the first
page, page 5 is rejected with `InvalidSignaturePage`. -/
theorem c5_page_placement_witness :
    add_annotation_to_page 3 1 = .ok 0 ∧
    add_annotation_to_page 3 5 =
      .error (.Signing .InvalidSignaturePage ("Page " ++ toString 5 ++ " not found")) := by
  have h := c5_page_placement 3 5
  exact ⟨h.1 (by decide), h.2.1 (by decide)⟩

/-- C7: `login` is atomic: every failing step leaves the manager state
exactly as it was (in particular a logged-out manager stays logged out),
and only on full success are session, signing key, certificate DER and
chain all stored. -/
theorem c7_login_atomic (st : TokenManagerState) (env : LoginEnv) (slot_id : Nat) :
    (∀ e, (login st env slot_id).2 = .error e → (login st env slot_id).1 = st) ∧
    ((login st env slot_id).2 = .ok () →
      ∃ s k c ch, (login st env slot_id).1 = ⟨some s, some k, some c, ch⟩) := by
  rcases hgs : env.get_slots with e | slots
  · simp [login, hgs]
  · rcases hf : slots.find? (fun s => s == slot_id) with _ | slot
    · simp [login, hgs, hf]
    · rcases hos : env.open_rw_session slot with e | session
      · simp [login, hgs, hf, hos]
      · rcases hau : env.authenticate session with e | u
        · simp [login, hgs, hf, hos, hau]
        · rcases hfk : env.find_key session with e | key
          · simp [login, hgs, hf, hos, hau, hfk]
          · rcases hfc : env.find_chain session with e | pr
            · simp [login, hgs, hf, hos, hau, hfk, hfc]
            · rcases pr with ⟨cert, chain⟩
              simp only [login, hgs, hf, hos, hau, hfk, hfc]
              constructor
              · intro e he
                simp at he
              · intro _
                exact ⟨session, key, cert, chain, rfl⟩

/-- Witness for C7: a failed first step leaves a logged-out manager
untouched, and a fully successful environment stores all four fields. -/
theorem c7_login_atomic_witness :
    (login emptyState failEnv 5).1 = emptyState ∧
    ∃ s k c ch, (login emptyState okEnv 5).1 = ⟨some s, some k, some c, ch⟩ := by
  constructor
  · exact (c7_login_atomic emptyState failEnv 5).1 _ rfl
  · exact (c7_login_atomic emptyState okEnv 5).2 rfl

/-- C10: `compute_document_digest` is total whenever the first span fits in
the buffer: it returns a digest (of the hash's output size) even when the
second span overruns the buffer, in which case the second span is silently
dropped and only the first span is hashed. -/
theorem c10_digest_total (H : List Nat → List Nat) (pdf : List Nat) (br : ByteRange)
    (hH : ∀ x, (H x).length = 32) (h1 : br.o1 + br.l1 ≤ pdf.length) :
    ∃ d, compute_document_digest H pdf br = some d ∧ d.length = 32 ∧
      (pdf.length < br.o2 + br.l2 → d = H ((pdf.drop br.o1).take br.l1)) := by
  unfold compute_document_digest
  rw [if_pos h1]
  by_cases h2 : br.o2 + br.l2 ≤ pdf.length
  · exact ⟨_, by rw [if_pos h2], hH _, fun hc => absurd h2 (by omega)⟩
  · refine ⟨H ((pdf.drop br.o1).take br.l1), ?_, hH _, fun _ => rfl⟩
    rw [if_neg h2]
    simp

/-- Witness for C10: a one-byte buffer with an out-of-bounds second span
still digests. -/
theorem c10_digest_total_witness :
    ∃ d, compute_document_digest (fun _ => List.replicate 32 0) [7] ⟨0, 1, 5, 5⟩ = some d ∧
      d.length = 32 := by
  obtain ⟨d, hd, hl, _⟩ :=
    c10_digest_total (fun _ => List.replicate 32 0) [7] ⟨0, 1, 5, 5⟩
      (fun x => by simp) (by simp)
  exact ⟨d, hd, hl⟩

/-- Unfolding of `chain_loop` at positive fuel. -/
theorem chain_loop_succ (parse : List Nat → Option ParsedCert)
    (all_certs : List (List Nat)) (fuel : Nat) (chain : List (List Nat)) (current : List Nat) :
    chain_loop parse all_certs (fuel + 1) chain current =
      match parse current with
      | none => chain
      | some pr =>
        if pr.issuer = pr.subject then chain
        else
          match all_certs.find? (issuer_match parse current pr.issuer) with
          | none => chain
          | some cand => chain_loop parse all_certs fuel (chain ++ [cand]) cand := rfl

/-- A certificate that does not parse stops the chain loop at once. -/
theorem chain_loop_parse_none (parse : List Nat → Option ParsedCert)
    (all_certs : List (List Nat)) (chain : List (List Nat)) (current : List Nat)
    (h : parse current = none) :
    ∀ fuel, chain_loop parse all_certs fuel chain current = chain := by
  intro fuel
  cases fuel with
  | zero => rfl
  | succ fuel => rw [chain_loop_succ, h]

/-- A self-signed certificate stops the chain loop at once. -/
theorem chain_loop_self_signed (parse : List Nat → Option ParsedCert)
    (all_certs : List (List Nat)) (chain : List (List Nat)) (current : List Nat)
    (pr : ParsedCert) (h : parse current = some pr) (hss : pr.issuer = pr.subject) :
    ∀ fuel, chain_loop parse all_certs fuel chain current = chain := by
  intro fuel
  cases fuel with
  | zero => rfl
  | succ fuel =>
    rw [chain_loop_succ, h]
    simp [hss]

/-- A parsable, non-self-signed certificate with no issuer on the token
stops the chain loop. -/
theorem chain_loop_no_issuer (parse : List Nat → Option ParsedCert)
    (all_certs : List (List Nat)) (chain : List (List Nat)) (current : List Nat)
    (pr : ParsedCert) (h : parse current = some pr) (hss : ¬pr.issuer = pr.subject)
    (hfind : all_certs.find? (issuer_match parse current pr.issuer) = none) :
    ∀ fuel, chain_loop parse all_certs fuel chain current = chain := by
  intro fuel
  cases fuel with
  | zero => rfl
  | succ fuel =>
    rw [chain_loop_succ, h]
    simp [hss, hfind]

/-- A found issuer is appended and the loop continues from it. -/
theorem chain_loop_step (parse : List Nat → Option ParsedCert)
    (all_certs : List (List Nat)) (chain : List (List Nat)) (current : List Nat)
    (pr : ParsedCert) (cand : List Nat) (fuel : Nat)
    (h : parse current = some pr) (hss : ¬pr.issuer = pr.subject)
    (hfind : all_certs.find? (issuer_match parse current pr.issuer) = some cand) :
    chain_loop parse all_certs (fuel + 1) chain current =
      chain_loop parse all_certs fuel (chain ++ [cand]) cand := by
  rw [chain_loop_succ, h]
  simp [hss, hfind]

/-- Elimination for a successful candidate test in the inner loop. -/
theorem issuer_match_eq_true (parse : List Nat → Option ParsedCert)
    (current : List Nat) (issuer : Nat) (c : List Nat)
    (h : issuer_match parse current issuer c = true) :
    c ≠ current ∧ ∃ pr, parse c = some pr ∧ pr.subject = issuer := by
  unfold issuer_match at h
  by_cases hc : c = current
  · rw [if_pos hc] at h
    exact absurd h (by simp)
  · rw [if_neg hc] at h
    rcases hp : parse c with _ | pr
    · rw [hp] at h
      exact absurd h (by simp)
    · rw [hp] at h
      exact ⟨hc, pr, rfl, by simpa using h⟩

/-- Invariant of the chain loop: the head is preserved, at most `fuel`
certificates are appended, every appended certificate comes from the token
and extends the subject/issuer chain. -/
theorem chain_loop_spec (parse : List Nat → Option ParsedCert)
    (all_certs : List (List Nat)) :
    ∀ fuel (chain : List (List Nat)) (current : List Nat), chain ≠ [] →
      chain.getLast? = some current → List.Chain' (ChainLink parse) chain →
      (∀ c ∈ chain.tail, c ∈ all_certs) →
      (chain_loop parse all_certs fuel chain current).head? = chain.head? ∧
      (chain_loop parse all_certs fuel chain current).length ≤ chain.length + fuel ∧
      List.Chain' (ChainLink parse) (chain_loop parse all_certs fuel chain current) ∧
      (∀ c ∈ (chain_loop parse all_certs fuel chain current).tail, c ∈ all_certs) := by
  intro fuel
  induction fuel with
  | zero =>
    intro chain current h1 h2 h3 h4
    exact ⟨rfl, Nat.le_add_right _ _, h3, h4⟩
  | succ fuel ih =>
    intro chain current h1 h2 h3 h4
    rcases hp : parse current with _ | pr
    · rw [chain_loop_parse_none parse all_certs chain current hp]
      exact ⟨rfl, by omega, h3, h4⟩
    · by_cases hss : pr.issuer = pr.subject
      · rw [chain_loop_self_signed parse all_certs chain current pr hp hss]
        exact ⟨rfl, by omega, h3, h4⟩
      · rcases hfind : all_certs.find? (issuer_match parse current pr.issuer) with _ | cand
        · rw [chain_loop_no_issuer parse all_certs chain current pr hp hss hfind]
          exact ⟨rfl, by omega, h3, h4⟩
        · rw [chain_loop_step parse all_certs chain current pr cand fuel hp hss hfind]
          have hmemc : cand ∈ all_certs := List.mem_of_find?_eq_some hfind
          obtain ⟨hne, pr2, hp2, hsub⟩ :=
            issuer_match_eq_true parse current pr.issuer cand (List.find?_some hfind)
          have hchain2 : List.Chain' (ChainLink parse) (chain ++ [cand]) := by
            rw [List.chain'_append]
            refine ⟨h3, List.chain'_singleton _, ?_⟩
            intro x hx y hy
            rw [h2] at hx
            simp only [Option.mem_def, Option.some.injEq] at hx
            simp only [List.head?_cons, Option.mem_def, Option.some.injEq] at hy
            subst hx
            subst hy
            exact ⟨pr, pr2, hp, hp2, hsub⟩
          have h2' : (chain ++ [cand]).getLast? = some cand := List.getLast?_concat _
          have h4' : ∀ c ∈ (chain ++ [cand]).tail, c ∈ all_certs := by
            cases chain with
            | nil => exact absurd rfl h1
            | cons a l =>
              intro c hc
              simp only [List.cons_append, List.tail_cons, List.mem_append,
                List.mem_singleton] at hc
              rcases hc with hc | hc
              · exact h4 c (by simpa using hc)
              · exact hc ▸ hmemc
          obtain ⟨ih1, ih2, ih3, ih4⟩ := ih (chain ++ [cand]) cand (by simp) h2' hchain2 h4'
          refine ⟨?_, ?_, ih3, ih4⟩
          · rw [ih1]
            cases chain with
            | nil => exact absurd rfl h1
            | cons a l => simp
          · have hlen : (chain ++ [cand]).length = chain.length + 1 := by simp
            omega

/-- C8: the built chain starts with the end-entity (the first certificate
object the token returned), appends at most 10 further certificates, each
taken from the token with its subject DN equal to the previous element's
issuer DN; an unparsable or self-signed end-entity yields the singleton
chain, which is a valid result. -/
theorem c8_chain_building (parse : List Nat → Option ParsedCert) (end_entity : List Nat)
    (all_certs : List (List Nat)) :
    (build_certificate_chain parse end_entity all_certs).head? = some end_entity ∧
    (build_certificate_chain parse end_entity all_certs).length ≤ 11 ∧
    List.Chain' (ChainLink parse) (build_certificate_chain parse end_entity all_certs) ∧
    (∀ c ∈ (build_certificate_chain parse end_entity all_certs).tail, c ∈ all_certs) ∧
    (parse end_entity = none →
      build_certificate_chain parse end_entity all_certs = [end_entity]) ∧
    (∀ pr, parse end_entity = some pr → pr.issuer = pr.subject →
      build_certificate_chain parse end_entity all_certs = [end_entity]) ∧
    (∀ rest, find_certificate_chain parse (end_entity :: rest) =
      .ok (end_entity, build_certificate_chain parse end_entity (end_entity :: rest))) := by
  obtain ⟨h1, h2, h3, h4⟩ := chain_loop_spec parse all_certs 10 [end_entity] end_entity
    (by simp) (by simp) (List.chain'_singleton _) (by simp)
  refine ⟨?_, ?_, h3, h4, ?_, ?_, ?_⟩
  · simpa using h1
  · simpa using h2
  · intro hp
    exact chain_loop_parse_none parse all_certs [end_entity] end_entity hp 10
  · intro pr hp hss
    exact chain_loop_self_signed parse all_certs [end_entity] end_entity pr hp hss 10
  · intro rest
    rfl

/-- Witness for C8 on the sample three-certificate token: the chain starts
at the end-entity and runs to the self-signed root. -/
theorem c8_chain_building_witness :
    (build_certificate_chain sampleParse [1] sampleCerts).head? = some [1] ∧
    build_certificate_chain sampleParse [1] sampleCerts = [[1], [2], [3]] := by
  refine ⟨(c8_chain_building sampleParse [1] sampleCerts).1, ?_⟩
  rfl

/-- A window comparison fails when the first byte of the window differs
from the first byte of the pattern. -/
theorem slice_eq_false_of_first (pdf pat : List Nat) (q b : Nat)
    (hpat : pat.head? = some b) (h : pdf[q]? ≠ some b) : slice_eq pdf pat q = false := by
  rcases pat with _ | ⟨p0, prest⟩
  · simp at hpat
  · simp only [List.head?_cons, Option.some.injEq] at hpat
    subst hpat
    unfold slice_eq
    rcases hl : pdf.drop q with _ | ⟨x, xs⟩
    · simp
    · have hx : pdf[q]? = some x := by
        have h0 : (pdf.drop q)[0]? = some x := by rw [hl]; simp
        rwa [List.getElem?_drop, Nat.add_zero] at h0
      simp only [List.length_cons, List.take_succ_cons]
      rw [beq_eq_false_iff_ne]
      intro heq
      exact h (by rw [hx, ((List.cons.injEq _ _ _ _).mp heq).1])

/-- Backward scan: no candidate position matches, no result. -/
theorem rpos_from_eq_none (pdf pat : List Nat) (m : Nat)
    (h : ∀ q, q ≤ m → slice_eq pdf pat q = false) : rpos_from pdf pat m = none := by
  induction m with
  | zero =>
    unfold rpos_from
    rw [h 0 (Nat.le_refl 0)]
    rfl
  | succ m ih =>
    unfold rpos_from
    rw [h (m + 1) (Nat.le_refl _)]
    exact ih fun q hq => h q (Nat.le_succ_of_le hq)

/-- Backward scan: a match at 0 and no match above yields 0. -/
theorem rpos_from_eq_zero (pdf pat : List Nat) (m : Nat)
    (h0 : slice_eq pdf pat 0 = true)
    (h : ∀ q, 1 ≤ q → q ≤ m → slice_eq pdf pat q = false) :
    rpos_from pdf pat m = some 0 := by
  induction m with
  | zero =>
    unfold rpos_from
    rw [h0]
    rfl
  | succ m ih =>
    unfold rpos_from
    rw [h (m + 1) (Nat.le_add_left _ _) (Nat.le_refl _)]
    exact ih fun q h1 hq => h q h1 (Nat.le_succ_of_le hq)

/-- Forward scan: no candidate position matches, no result. -/
theorem ffind_eq_none (pdf pat : List Nat) :
    ∀ k p, (∀ q, p ≤ q → q < p + k → slice_eq pdf pat q = false) →
      ffind pdf pat p k = none := by
  intro k
  induction k with
  | zero => intro p _; rfl
  | succ k ih =>
    intro p h
    unfold ffind
    rw [h p (Nat.le_refl p) (by omega)]
    exact ih (p + 1) fun q h1 h2 => h q (by omega) (by omega)

/-- A successful forward position search returns an index holding a byte
that satisfies the predicate. -/
theorem position_getElem? (f : Nat → Bool) (l : List Nat) :
    ∀ i, position f l = some i → ∃ b, l[i]? = some b ∧ f b = true := by
  induction l with
  | nil => intro i h; simp [position] at h
  | cons x xs ih =>
    intro i h
    unfold position at h
    by_cases hx : f x
    · rw [if_pos hx] at h
      simp only [Option.some.injEq] at h
      subst h
      exact ⟨x, by simp, hx⟩
    · rw [if_neg hx] at h
      rcases hrec : position f xs with _ | j
      · rw [hrec] at h; simp at h
      · rw [hrec] at h
        simp at h
        subst h
        obtain ⟨b, hb, hfb⟩ := ih j hrec
        exact ⟨b, by simpa using hb, hfb⟩

/-- Unfolding of `position` on a cons cell. -/
theorem position_cons (f : Nat → Bool) (x : Nat) (l : List Nat) :
    position f (x :: l) = if f x then some 0 else (position f l).map (fun i => i + 1) := rfl

/-- A successful forward position search stays inside the list. -/
theorem position_lt_length (f : Nat → Bool) (l : List Nat) (i : Nat)
    (h : position f l = some i) : i < l.length := by
  obtain ⟨b, hb, _⟩ := position_getElem? f l i h
  exact (List.getElem?_eq_some.mp hb).1

/-- Position search skips a replicate block whose element fails the
predicate. -/
theorem position_replicate_append (f : Nat → Bool) (a : Nat) (hfa : f a = false)
    (l : List Nat) : ∀ n, position f (List.replicate n a ++ l) =
      (position f l).map (fun i => i + n) := by
  intro n
  induction n with
  | zero => simp
  | succ n ih =>
    rw [List.replicate_succ, List.cons_append, position_cons, hfa]
    simp only [Bool.false_eq_true, if_false]
    rw [ih, Option.map_map]
    have harr : ((fun x => x + 1) ∘ fun i => i + n) = (fun i => i + (n + 1)) := by
      funext i
      show i + n + 1 = i + (n + 1)
      omega
    rw [harr]

/-- Round trip through the builder: the messageDigest attribute of the
SignedAttributes built from a 32-byte digest carries exactly the digest
bytes as its OCTET STRING value. -/
theorem extract_message_digest_of_build (d t : List Nat) (hd : d.length = 32)
    (ht : t.length = 13) :
    extract_message_digest (build_signed_attributes d t) = some d := by
  simp [build_signed_attributes, build_attribute, build_set, build_sequence, build_oid,
    build_octet_string, build_utc_time, extend_with_length, msgDigestOid, contentTypeOid,
    dataOid, signingTimeOid, hd, ht, extract_message_digest, decode_der_length, scan_attrs,
    List.take_append_eq_append_take]

/-- C2: for a byte range whose two spans lie inside the prepared bytes, the
document digest is the hash of the concatenation of the two ByteRange spans
(`prepared[o1..o1+l1] ++ prepared[o2..o2+l2]`, the signing pipeline passes
`o1 = 0`), and exactly these digest bytes are the OCTET STRING value of the
messageDigest attribute inside the built SignedAttributes. -/
theorem c2_digest_in_message_digest (H : List Nat → List Nat)
    (hH : ∀ x, (H x).length = 32) (pdf : List Nat) (br : ByteRange) (t : List Nat)
    (ht : t.length = 13) (h1 : br.o1 + br.l1 ≤ pdf.length)
    (h2 : br.o2 + br.l2 ≤ pdf.length) :
    compute_document_digest H pdf br =
      some (H ((pdf.drop br.o1).take br.l1 ++ (pdf.drop br.o2).take br.l2)) ∧
    extract_message_digest
        (build_signed_attributes
          (H ((pdf.drop br.o1).take br.l1 ++ (pdf.drop br.o2).take br.l2)) t) =
      some (H ((pdf.drop br.o1).take br.l1 ++ (pdf.drop br.o2).take br.l2)) := by
  constructor
  · unfold compute_document_digest
    rw [if_pos h1, if_pos h2]
  · exact extract_message_digest_of_build _ t (hH _) ht

/-- Membership from a successful index lookup. -/
theorem mem_of_getElem_some (l : List Nat) (n a : Nat) (h : l[n]? = some a) : a ∈ l := by
  obtain ⟨hlt, he⟩ := List.getElem?_eq_some.mp h
  exact he ▸ List.getElem_mem hlt

/-- Length of the sample prepared document. -/
theorem samplePrepared_length : samplePrepared.length = 131083 := by
  rw [samplePrepared, List.length_append, List.length_append, List.length_replicate]
  rfl

/-- Reassociation of the sample prepared document. -/
theorem samplePrepared_assoc :
    samplePrepared = CONTENTS_NSP ++ (List.replicate 131072 48 ++ [62]) := by
  rw [samplePrepared, List.append_assoc]

/-- Every byte of the sample prepared document after position 0 differs
from the slash that starts the `/Contents` patterns. -/
theorem samplePrepared_no47 (q : Nat) (hq : 1 ≤ q) : samplePrepared[q]? ≠ some 47 := by
  intro hcon
  have hdrop : (samplePrepared.drop 1)[q - 1]? = some 47 := by
    rw [List.getElem?_drop]
    have h1 : 1 + (q - 1) = q := by omega
    rw [h1]
    exact hcon
  have hmem : (47 : Nat) ∈ samplePrepared.drop 1 := mem_of_getElem_some _ _ _ hdrop
  revert hmem
  rw [samplePrepared_assoc, CONTENTS_NSP, List.cons_append, List.drop_succ_cons,
    List.drop_zero]
  intro hmem
  rcases List.mem_append.mp hmem with hm | hm
  · simp at hm
  · rcases List.mem_append.mp hm with hm2 | hm2
    · rw [List.mem_replicate] at hm2
      omega
    · simp at hm2

/-- The space variant of the pattern never occurs in the sample prepared
document. -/
theorem samplePrepared_rpos_sp : rpos_window samplePrepared CONTENTS_SP = none := by
  unfold rpos_window
  rw [if_pos (by rw [samplePrepared_length]; decide)]
  apply rpos_from_eq_none
  intro q _
  rcases Nat.eq_zero_or_pos q with hq0 | hq1
  · subst hq0
    decide
  · exact slice_eq_false_of_first _ _ q 47 rfl (samplePrepared_no47 q hq1)

/-- The compact pattern occurs exactly at offset 0 of the sample prepared
document, and the backward search finds it. -/
theorem samplePrepared_rpos_nsp : rpos_window samplePrepared CONTENTS_NSP = some 0 := by
  unfold rpos_window
  rw [if_pos (by rw [samplePrepared_length]; decide)]
  apply rpos_from_eq_zero
  · decide
  · intro q h1 _
    exact slice_eq_false_of_first _ _ q 47 rfl (samplePrepared_no47 q h1)

/-- The opening angle bracket of the sample prepared document sits at
offset 9. -/
theorem samplePrepared_pos60 :
    position (fun b => b == 60) samplePrepared = some 9 := by
  decide

/-- The closing angle bracket of the sample prepared document sits
131,073 bytes after the opening one. -/
theorem samplePrepared_pos62 :
    position (fun b => b == 62) (samplePrepared.drop 9) = some 131073 := by
  have hdrop : samplePrepared.drop 9 = 60 :: (List.replicate 131072 48 ++ [62]) := rfl
  rw [hdrop, position_cons]
  rw [show ((60 : Nat) == 62) = false from rfl]
  simp only [Bool.false_eq_true, if_false]
  rw [position_replicate_append (fun b => b == 62) 48 rfl [62] 131072]
  rw [show position (fun b => b == 62) [62] = some 0 from rfl]
  rfl

/-- Success shape of `calculate_byte_range`: when the backward pattern
search, the distance check and both bracket searches succeed, the result is
`[0, cs + p, cs + p + q + 1, len - (cs + p + q + 1)]`. -/
theorem calculate_byte_range_eq (pdf : List Nat) (cs p q : Nat)
    (hor : (rpos_window pdf CONTENTS_SP).orElse
      (fun _ => rpos_window pdf CONTENTS_NSP) = some cs)
    (hpos : ¬cs < pdf.length - SIGNATURE_MAX_DISTANCE_FROM_EOF)
    (hp60 : position (fun b => b == 60) (pdf.drop cs) = some p)
    (hp62 : position (fun b => b == 62) (pdf.drop (cs + p)) = some q) :
    calculate_byte_range pdf =
      .ok ⟨0, cs + p, cs + p + q + 1, pdf.length - (cs + p + q + 1)⟩ := by
  unfold calculate_byte_range
  simp only [hor]
  rw [if_neg hpos]
  simp only [hp60, hp62]

/-- Byte range of the sample prepared document, as the code computes it. -/
theorem samplePrepared_byte_range :
    calculate_byte_range samplePrepared = .ok ⟨0, 9, 131083, 0⟩ := by
  have hor : (rpos_window samplePrepared CONTENTS_SP).orElse
      (fun _ => rpos_window samplePrepared CONTENTS_NSP) = some 0 := by
    rw [samplePrepared_rpos_sp, samplePrepared_rpos_nsp]
    rfl
  have hp60 : position (fun b => b == 60) (samplePrepared.drop 0) = some 9 := by
    rw [List.drop_zero]
    exact samplePrepared_pos60
  have hp62 : position (fun b => b == 62) (samplePrepared.drop (0 + 9)) = some 131073 := by
    rw [Nat.zero_add]
    exact samplePrepared_pos62
  have h := calculate_byte_range_eq samplePrepared 0 9 131073 hor
    (by rw [samplePrepared_length]; decide) hp60 hp62
  rw [samplePrepared_length] at h
  rw [h]

/-- Length of the hex encoding: two characters per byte. -/
theorem hex_encode_upper_length (l : List Nat) :
    (hex_encode_upper l).length = 2 * l.length := by
  induction l with
  | nil => rfl
  | cons x xs ih =>
    simp only [hex_encode_upper, List.flatMap_cons, List.length_append, List.length_cons,
      List.length_nil] at ih ⊢
    omega

/-- Whenever `embed_signature` succeeds (with no `/ByteRange` marker to
rewrite, as with the lopdf 0.37 serializer), the output has exactly the
length of the prepared input: splicing replaces the container window in
place. -/
theorem embed_signature_ok_length (pdf cms : List Nat) (br : ByteRange) (out : List Nat)
    (hm : find_bytes pdf byteRangeMarker = none)
    (h : embed_signature pdf cms br = .ok out) : out.length = pdf.length := by
  simp only [embed_signature, hm] at h
  split at h
  · exact absurd h (by simp)
  rename_i hbig
  split at h
  · exact absurd h (by simp)
  rename_i hwidth
  split at h
  · rename_i hce
    have hwidth2 := not_ne_iff.mp hwidth
    rw [hex_encode_upper_length] at hbig
    simp only [EmbedResult.ok.injEq] at h
    subst h
    simp only [List.length_append, List.length_take, List.length_drop,
      List.length_replicate, hex_encode_upper_length]
    simp only [SIGNATURE_CONTAINER_SIZE] at hwidth2 hbig ⊢
    omega
  · exact absurd h (by simp)

/-- C1: whenever `calculate_byte_range` succeeds and the container-width
check of `embed_signature` passes, the byte range is
`[0, h, h + 131074, L - (h + 131074)]` with `h` the offset of the opening
angle bracket of the last `/Contents` occurrence; consequently
`b1 + b3 + (b2 - b1)` equals the total length and `b2 - b1 = 131074`
(131,072 hex characters plus the two angle brackets). -/
theorem c1_byte_range_shape (pdf : List Nat) (br : ByteRange)
    (h : calculate_byte_range pdf = .ok br)
    (hc : br.o2 - 1 - (br.l1 + 1) = SIGNATURE_CONTAINER_SIZE * 2) :
    br.o1 = 0 ∧ pdf.getD br.l1 0 = 60 ∧ br.o2 = br.l1 + 131074 ∧
    br.l2 = pdf.length - (br.l1 + 131074) ∧
    br.l1 + br.l2 + (br.o2 - br.l1) = pdf.length ∧ br.o2 - br.l1 = 131074 ∧
    (∀ cms out, find_bytes pdf byteRangeMarker = none →
      embed_signature pdf cms br = .ok out →
      br.l1 + br.l2 + (br.o2 - br.l1) = out.length) := by
  rcases br with ⟨o1, l1, o2, l2⟩
  unfold calculate_byte_range at h
  split at h
  · simp at h
  rename_i cs hcs
  split at h
  · simp at h
  rename_i hpos
  split at h
  · simp at h
  rename_i p hp60
  split at h
  · simp at h
  rename_i q hp62
  simp only [Except.ok.injEq, ByteRange.mk.injEq] at h
  obtain ⟨ho1, hl1, ho2, hl2⟩ := h
  subst ho1
  subst hl1
  subst ho2
  subst hl2
  obtain ⟨b60, hb60, hfb60⟩ := position_getElem? _ _ p hp60
  have hb60e : b60 = 60 := by simpa using hfb60
  subst hb60e
  have hat : pdf[cs + p]? = some 60 := by
    rw [← List.getElem?_drop]
    exact hb60
  obtain ⟨b62, hb62, hfb62⟩ := position_getElem? _ _ q hp62
  have hb62e : b62 = 62 := by simpa using hfb62
  subst hb62e
  have hq1 : 1 ≤ q := by
    rcases Nat.eq_zero_or_pos q with h0 | h1
    · subst h0
      rw [List.getElem?_drop, Nat.add_zero] at hb62
      rw [hat] at hb62
      simp at hb62
    · exact h1
  have hqlt : q < pdf.length - (cs + p) := by
    have hlt := position_lt_length _ _ q hp62
    rwa [List.length_drop] at hlt
  have hgd : pdf.getD (cs + p) 0 = 60 := by
    rw [List.getD_eq_getElem?_getD, hat]
    rfl
  dsimp only at hc ⊢
  simp only [SIGNATURE_CONTAINER_SIZE] at hc
  refine ⟨rfl, hgd, by omega, by omega, by omega, by omega, ?_⟩
  intro cms out hm hemb
  have hlen := embed_signature_ok_length pdf cms _ out hm hemb
  omega

/-- Witness for C1: the sample prepared document (compact `/Contents<`
window of 131,072 zeros) satisfies both hypotheses and yields the claimed
shape. -/
theorem c1_byte_range_shape_witness :
    calculate_byte_range samplePrepared = .ok ⟨0, 9, 131083, 0⟩ ∧
    9 + 0 + (131083 - 9) = samplePrepared.length ∧ 131083 - 9 = 131074 := by
  have h := c1_byte_range_shape samplePrepared ⟨0, 9, 131083, 0⟩
    samplePrepared_byte_range (by norm_num [SIGNATURE_CONTAINER_SIZE])
  exact ⟨samplePrepared_byte_range, h.2.2.2.2.1, h.2.2.2.2.2.1⟩

/-- An oversized CMS makes `embed_signature` fail with the capacity
message (a `Pdf` error). -/
theorem embed_too_large (pdf cms : List Nat) (br : ByteRange)
    (hm : find_bytes pdf byteRangeMarker = none)
    (hbig : SIGNATURE_CONTAINER_SIZE * 2 < 2 * cms.length) :
    embed_signature pdf cms br = .err (.Pdf (tooLargeMsg (2 * cms.length))) := by
  simp only [embed_signature, hm]
  rw [hex_encode_upper_length, if_pos hbig]

/-- A CMS of exactly 65,536 bytes embeds successfully when the container
window has the expected width and lies inside the buffer. -/
theorem embed_ok (pdf cms : List Nat) (br : ByteRange)
    (hm : find_bytes pdf byteRangeMarker = none)
    (hsize : cms.length = 65536)
    (hw : br.o2 - 1 - (br.l1 + 1) = SIGNATURE_CONTAINER_SIZE * 2)
    (hce : br.o2 - 1 ≤ pdf.length) :
    ∃ out, embed_signature pdf cms br = .ok out := by
  simp only [embed_signature, hm]
  rw [hex_encode_upper_length, hsize]
  rw [if_neg (by norm_num [SIGNATURE_CONTAINER_SIZE])]
  rw [if_neg (not_ne_iff.mpr hw), if_pos hce]
  exact ⟨_, rfl⟩

/-- Length of the sample container window. -/
theorem sampleWindow_length : sampleWindow.length = 131074 := by
  rw [sampleWindow, List.length_append, List.length_cons, List.length_replicate]
  rfl

/-- No byte of the sample container window is the slash that starts the
`/ByteRange` marker. -/
theorem sampleWindow_no47 (q : Nat) : sampleWindow[q]? ≠ some 47 := by
  intro hcon
  have hmem := mem_of_getElem_some _ _ _ hcon
  revert hmem
  rw [sampleWindow]
  intro hmem
  rcases List.mem_append.mp hmem with hm | hm
  · rcases List.mem_cons.mp hm with hm2 | hm2
    · omega
    · rw [List.mem_replicate] at hm2
      omega
  · simp at hm

/-- The sample container window carries no `/ByteRange [0 0 0 0]`
marker. -/
theorem sampleWindow_find_marker :
    find_bytes sampleWindow byteRangeMarker = none := by
  unfold find_bytes
  rw [if_pos (by rw [sampleWindow_length]; decide)]
  apply ffind_eq_none
  intro q _ _
  exact slice_eq_false_of_first _ _ q 47 rfl (sampleWindow_no47 q)

/-- C4 counterexample: an oversized CMS is rejected with a `Pdf`-category
error, not with the `Signing` variant carrying code `SigningFailed` as the
claim states. -/
theorem c4_signing_failed_counterexample :
    embed_signature [] (List.replicate 65537 0) ⟨0, 0, 0, 0⟩ =
      .err (.Pdf (tooLargeMsg 131074)) ∧
    is_signing_error_code (.Pdf (tooLargeMsg 131074)) .SigningFailed = false := by
  constructor
  · have h := embed_too_large [] (List.replicate 65537 0) ⟨0, 0, 0, 0⟩ (by decide)
      (by rw [List.length_replicate]; norm_num [SIGNATURE_CONTAINER_SIZE])
    rw [List.length_replicate] at h
    norm_num at h
    exact h
  · rfl

/-- C4 (amended): with the serialized container window of the expected
width inside the buffer, a CMS whose upper-case hex encoding is exactly
131,072 characters embeds successfully and the output is produced, while a
larger CMS fails with a `Pdf`-category error whose message cites the
container capacity (not the `Signing` variant with code `SigningFailed`),
and in that case no output bytes are produced, so the file is not
written. -/
theorem c4_container_capacity (pdf cms : List Nat) (br : ByteRange)
    (hm : find_bytes pdf byteRangeMarker = none)
    (hw : br.o2 - 1 - (br.l1 + 1) = SIGNATURE_CONTAINER_SIZE * 2)
    (hce : br.o2 - 1 ≤ pdf.length) :
    (cms.length = 65536 → ∃ out, embed_signature pdf cms br = .ok out ∧
      sign_pdf_output pdf cms br = some out) ∧
    (65536 < cms.length →
      embed_signature pdf cms br = .err (.Pdf (tooLargeMsg (2 * cms.length))) ∧
      is_signing_error_code (.Pdf (tooLargeMsg (2 * cms.length))) .SigningFailed = false ∧
      sign_pdf_output pdf cms br = none) := by
  constructor
  · intro hsz
    obtain ⟨out, hout⟩ := embed_ok pdf cms br hm hsz hw hce
    exact ⟨out, hout, by simp only [sign_pdf_output, hout]⟩
  · intro hbig
    have he := embed_too_large pdf cms br hm
      (by simp only [SIGNATURE_CONTAINER_SIZE]; omega)
    exact ⟨he, rfl, by simp only [sign_pdf_output, he]⟩

/-- Witness for C4 on the sample container window: a 65,536-byte CMS
embeds, a 65,537-byte CMS is rejected and produces no output. -/
theorem c4_container_capacity_witness :
    (∃ out, embed_signature sampleWindow (List.replicate 65536 0) sampleWindowRange = .ok out) ∧
    sign_pdf_output sampleWindow (List.replicate 65537 0) sampleWindowRange = none := by
  constructor
  · obtain ⟨out, ho, _⟩ := (c4_container_capacity sampleWindow (List.replicate 65536 0)
      sampleWindowRange sampleWindow_find_marker
      (by norm_num [sampleWindowRange, SIGNATURE_CONTAINER_SIZE])
      (by rw [sampleWindow_length]; norm_num [sampleWindowRange])).1
      (by rw [List.length_replicate])
    exact ⟨out, ho⟩
  · exact ((c4_container_capacity sampleWindow (List.replicate 65537 0)
      sampleWindowRange sampleWindow_find_marker
      (by norm_num [sampleWindowRange, SIGNATURE_CONTAINER_SIZE])
      (by rw [sampleWindow_length]; norm_num [sampleWindowRange])).2
      (by rw [List.length_replicate]; norm_num)).2.2

/-- Witness for C2 on an empty buffer with the trivial byte range. -/
theorem c2_digest_in_message_digest_witness :
    ∃ dg, compute_document_digest sampleHash [] ⟨0, 0, 0, 0⟩ = some dg ∧
      extract_message_digest (build_signed_attributes dg sampleTime) = some dg := by
  obtain ⟨ha, hb⟩ := c2_digest_in_message_digest sampleHash (fun x => by simp [sampleHash])
    [] ⟨0, 0, 0, 0⟩ sampleTime (by simp [sampleTime]) (by simp) (by simp)
  exact ⟨_, ha, hb⟩

end ESign
